import Mathlib

/-!
# URL shortener frontend: validation, input state, API client

Shallow embedding of the client under `URLSFrontend/src`:
`utils/validation.js`, `hooks/useUrlInput.js`, `services/api.js`,
`components/features/UrlInput.jsx`, `components/features/UrlList.jsx` and
`pages/RedirectPage.jsx`.

JavaScript strings are sequences of UTF-16 code units, so `length`, `trim`
and the regular-expression test are defined on lists of code units.
-/

namespace UrlShortener

/-! ## JavaScript strings and values -/

/-- A JavaScript string, as its sequence of UTF-16 code units. -/
abbrev JSString := List Nat

/-- UTF-16 encoding of one Unicode scalar value. -/
def utf16 (c : Char) : List Nat :=
  if c.toNat < 0x10000 then [c.toNat]
  else [0xD800 + (c.toNat - 0x10000) / 0x400, 0xDC00 + (c.toNat - 0x10000) % 0x400]

/-- The JavaScript string written by a source literal. -/
def js (s : String) : JSString :=
  s.toList.foldr (fun c acc => utf16 c ++ acc) []

/-- The JavaScript values the validation functions can be called with. -/
inductive JSValue where
  | undefined : JSValue
  | null : JSValue
  | string (s : JSString) : JSValue
  deriving DecidableEq, Repr

/-- JavaScript `ToBoolean`. -/
def truthy : JSValue → Bool
  | .undefined => false
  | .null => false
  | .string s => !s.isEmpty

/-- Code units removed by `String.prototype.trim`: ECMAScript WhiteSpace and
LineTerminator. -/
def isWhiteSpace (c : Nat) : Bool :=
  c == 0x09 || c == 0x0A || c == 0x0B || c == 0x0C || c == 0x0D || c == 0x20 ||
  c == 0xA0 || c == 0x1680 || (0x2000 ≤ c && c ≤ 0x200A) ||
  c == 0x2028 || c == 0x2029 || c == 0x202F || c == 0x205F || c == 0x3000 || c == 0xFEFF

/-- `String.prototype.trim`. -/
def trim (s : JSString) : JSString :=
  ((s.dropWhile isWhiteSpace).reverse.dropWhile isWhiteSpace).reverse

/-- ASCII lower-casing of one code unit. -/
def asciiLower (c : Nat) : Nat :=
  if 0x41 ≤ c ∧ c ≤ 0x5A then c + 0x20 else c

/-- A pattern character of a regular expression with the `i` flag and without
the `u` flag, for a lower-case ASCII letter: the code unit matches when its
canonical form (upper-casing, never mapping a non-ASCII unit into ASCII) is
that of the letter, which happens for the letter and its capital only. -/
def matchesIgnoreCase (letter c : Nat) : Bool :=
  c == letter || c + 0x20 == letter

/-- `/^https?:\/\//i.test(s)`. -/
def testHttpScheme : JSString → Bool
  | h :: t1 :: t2 :: p :: rest =>
    matchesIgnoreCase 0x68 h && matchesIgnoreCase 0x74 t1 &&
    matchesIgnoreCase 0x74 t2 && matchesIgnoreCase 0x70 p &&
    ((match rest with
      | s :: rest2 => matchesIgnoreCase 0x73 s && (js "://").isPrefixOf rest2
      | [] => false) || (js "://").isPrefixOf rest)
  | _ => false

/-- `String.prototype.includes` on code units. -/
def includes : JSString → JSString → Bool
  | [], search => search.isPrefixOf []
  | c :: cs, search => search.isPrefixOf (c :: cs) || includes cs search

/-- `typeof v === 'string'`. -/
def typeofString : JSValue → Bool
  | .string _ => true
  | _ => false

/-- What the validation functions read of a `URL` object. -/
structure URLRecord where
  protocol : JSString
  hostname : JSString
  deriving DecidableEq, Repr

/-! ## `utils/validation.js`

The platform constructor `new URL(s)` is an argument `newURL` of the
functions that call it: `none` stands for the `TypeError` it throws. -/

/-- `isValidUrl` of `utils/validation.js`. -/
def isValidUrl (newURL : JSString → Option URLRecord) (url : JSValue) : Bool :=
  if !truthy url || !typeofString url then false
  else
    match url with
    | .string s =>
      let trimmedUrl := trim s
      if trimmedUrl.length == 0 then false
      else
        match newURL trimmedUrl with
        | some urlObject =>
          urlObject.protocol == js "https:" || urlObject.protocol == js "http:"
        | none =>
          match newURL (js "https://" ++ trimmedUrl) with
          | some urlWithProtoc => includes urlWithProtoc.hostname (js ".")
          | none => false
    | _ => false

/-- `normalizeURL` of `utils/validation.js`. -/
def normalizeURL (url : JSValue) : JSString :=
  if !truthy url || !typeofString url then js ""
  else
    match url with
    | .string s =>
      let trimmedUrl := trim s
      if !truthy (.string trimmedUrl) then js ""
      else if testHttpScheme trimmedUrl then trimmedUrl
      else js "https://" ++ trimmedUrl
    | _ => js ""

/-- `getUrlError` of `utils/validation.js`; `none` is `null`. The first test
`!url || url.trim().length === 0` holds for `undefined` and `null` by its left
operand. -/
def getUrlError (newURL : JSString → Option URLRecord) (url : JSValue) : Option JSString :=
  match url with
  | .string s =>
    if !truthy url || (trim s).length == 0 then some (js "URL cannot be empty")
    else if !isValidUrl newURL url then some (js "Provide a valid URL (Ex. https://example.com)")
    else
      let normalizedUrl := normalizeURL url
      if normalizedUrl.length > 2048 then
        some (js "URL is too long (maximum of 2048 characters)")
      else none
  | _ => some (js "URL cannot be empty")

/-- A string begins with the lower-case ASCII text `p` when compared
case-insensitively. -/
def BeginsWithIgnoreCase (p s : JSString) : Prop :=
  (s.take p.length).map asciiLower = p

/-- A string begins with `http://` or `https://`, compared case-insensitively. -/
def BeginsWithHttp (s : JSString) : Prop :=
  BeginsWithIgnoreCase (js "http://") s ∨ BeginsWithIgnoreCase (js "https://") s

/-! ## The platform `URL` constructor

A model of `new URL(input)` without a base URL, after the basic URL parser
of the URL Standard, kept to what decides whether parsing fails and to the
`protocol` and `hostname` of the result. The parts of the host parser that
need Unicode tables or the IPv6 grammar are taken as given. -/

namespace URL

/-- Parts of the host parser of the URL Standard taken as given. -/
structure HostAlgorithms where
  /-- Percent-decoding, UTF-8 decoding and Unicode ToASCII of a domain that
  is not plain ASCII or has an `xn--` label; `none` is failure. -/
  domainToASCII : JSString → Option JSString
  /-- IPv6 parser and serializer on the text between `[` and `]`. -/
  ipv6 : JSString → Option JSString
  /-- UTF-8 percent-encoding of an opaque host with the C0 control
  percent-encode set. -/
  percentEncode : JSString → JSString

/-- The given parts of a platform on which domains outside plain ASCII and
IPv6 literals fail; the parser does not consult them on a plain ASCII host. -/
def asciiHosts : HostAlgorithms := ⟨fun _ => none, fun _ => none, fun s => s⟩

def isC0ControlOrSpace (c : Nat) : Bool := c ≤ 0x20

def isTabOrNewline (c : Nat) : Bool := c == 0x09 || c == 0x0A || c == 0x0D

def isAsciiAlpha (c : Nat) : Bool := (0x41 ≤ c && c ≤ 0x5A) || (0x61 ≤ c && c ≤ 0x7A)

def isAsciiDigit (c : Nat) : Bool := 0x30 ≤ c && c ≤ 0x39

def isAsciiHexDigit (c : Nat) : Bool :=
  isAsciiDigit c || (0x41 ≤ c && c ≤ 0x46) || (0x61 ≤ c && c ≤ 0x66)

def isAscii (c : Nat) : Bool := c < 0x80

/-- `/` or `\`. -/
def isSlash (c : Nat) : Bool := c == 0x2F || c == 0x5C

/-- Code points a scheme may contain after its first letter. -/
def isSchemeChar (c : Nat) : Bool :=
  isAsciiAlpha c || isAsciiDigit c || c == 0x2B || c == 0x2D || c == 0x2E

/-- Special schemes of the URL Standard. -/
def specialSchemes : List JSString :=
  [js "ftp", js "file", js "http", js "https", js "ws", js "wss"]

def isSpecial (scheme : JSString) : Bool := specialSchemes.contains scheme

/-- Leading and trailing C0 controls and spaces are removed first. -/
def stripC0ControlOrSpace (s : JSString) : JSString :=
  ((s.dropWhile isC0ControlOrSpace).reverse.dropWhile isC0ControlOrSpace).reverse

/-- Then every ASCII tab and newline is removed. -/
def removeTabAndNewline (s : JSString) : JSString :=
  s.filter (fun c => !isTabOrNewline c)

/-- Scheme start state and scheme state: the lower-cased scheme and the text
after its colon. Without a base URL a missing scheme is a failure. -/
def parseScheme : JSString → Option (JSString × JSString)
  | [] => none
  | c :: cs =>
    if isAsciiAlpha c then
      match cs.dropWhile isSchemeChar with
      | d :: remaining =>
        if d == 0x3A then some ((c :: cs.takeWhile isSchemeChar).map asciiLower, remaining)
        else none
      | [] => none
    else none

/-- Value of a hexadecimal digit. -/
def hexValue (c : Nat) : Nat :=
  if isAsciiDigit c then c - 0x30
  else if 0x41 ≤ c ∧ c ≤ 0x46 then c - 0x37
  else c - 0x57

/-- Percent-decoding, on a string of ASCII code points. -/
def percentDecode : JSString → JSString
  | c :: a :: b :: rest =>
    if c == 0x25 && isAsciiHexDigit a && isAsciiHexDigit b then
      (16 * hexValue a + hexValue b) :: percentDecode rest
    else c :: percentDecode (a :: b :: rest)
  | short => short

/-- Strict split of a string on a code point. -/
def strictSplit (sep : Nat) : JSString → List JSString
  | [] => [[]]
  | c :: cs =>
    if c == sep then [] :: strictSplit sep cs
    else
      match strictSplit sep cs with
      | l :: ls => (c :: l) :: ls
      | [] => [[c]]

/-- Domain to ASCII, not strict. For an ASCII domain none of whose labels
starts with `xn--` the step is ASCII lower-casing; an empty result is a
failure. -/
def domainToASCII (P : HostAlgorithms) (input : JSString) : Option JSString :=
  let domain := percentDecode input
  if input.all isAscii && domain.all isAscii &&
      !(strictSplit 0x2E domain).any (fun l => (js "xn--").isPrefixOf (l.map asciiLower)) then
    let result := domain.map asciiLower
    if result.isEmpty then none else some result
  else
    match P.domainToASCII input with
    | some result => if result.isEmpty then none else some result
    | none => none

def isForbiddenHostCodePoint (c : Nat) : Bool :=
  c == 0x00 || c == 0x09 || c == 0x0A || c == 0x0D || c == 0x20 || c == 0x23 ||
  c == 0x2F || c == 0x3A || c == 0x3C || c == 0x3E || c == 0x3F || c == 0x40 ||
  c == 0x5B || c == 0x5C || c == 0x5D || c == 0x5E || c == 0x7C

def isForbiddenDomainCodePoint (c : Nat) : Bool :=
  isForbiddenHostCodePoint c || c ≤ 0x1F || c == 0x25 || c == 0x7F

/-- Digits of radix 8, 10 or 16. -/
def isRadixDigit (radix c : Nat) : Bool :=
  if radix == 16 then isAsciiHexDigit c
  else if radix == 8 then 0x30 ≤ c && c ≤ 0x37
  else isAsciiDigit c

/-- The IPv4 number parser. -/
def parseIPv4Number (input : JSString) : Option Nat :=
  if input.isEmpty then none
  else
    let split : JSString × Nat :=
      match input with
      | a :: b :: rest =>
        if a == 0x30 && (b == 0x78 || b == 0x58) then (rest, 16)
        else if a == 0x30 then (b :: rest, 8)
        else (input, 10)
      | _ => (input, 10)
    if split.1.isEmpty then some 0
    else if split.1.all (isRadixDigit split.2) then
      some (split.1.foldl (fun acc d => acc * split.2 + hexValue d) 0)
    else none

/-- Whether a domain ends in a number. -/
def endsInANumber (input : JSString) : Bool :=
  let parts := strictSplit 0x2E input
  if parts.getLast? == some [] && parts.length == 1 then false
  else
    let parts := if parts.getLast? == some [] then parts.dropLast else parts
    match parts.getLast? with
    | none => false
    | some last =>
      (!last.isEmpty && last.all isAsciiDigit) || (parseIPv4Number last).isSome

/-- All the numbers of a list of parts, or failure at the first bad one. -/
def parseIPv4Numbers : List JSString → Option (List Nat)
  | [] => some []
  | part :: parts =>
    match parseIPv4Number part with
    | none => none
    | some n =>
      match parseIPv4Numbers parts with
      | none => none
      | some ns => some (n :: ns)

/-- Sum of the items but the last, each times its power of 256. -/
def ipv4Sum : Nat → List Nat → Nat
  | _, [] => 0
  | counter, n :: ns => n * 256 ^ (3 - counter) + ipv4Sum (counter + 1) ns

/-- The IPv4 parser. -/
def parseIPv4 (input : JSString) : Option Nat :=
  let parts := strictSplit 0x2E input
  let parts := if parts.getLast? == some [] && parts.length > 1 then parts.dropLast else parts
  if parts.length > 4 then none
  else
    match parseIPv4Numbers parts with
    | none => none
    | some numbers =>
      if numbers.dropLast.any (fun n => n > 255) then none
      else
        match numbers.getLast? with
        | none => none
        | some last =>
          if last ≥ 256 ^ (5 - numbers.length) then none
          else some (last + ipv4Sum 0 numbers.dropLast)

/-- Decimal digits of a number. -/
def decimal (n : Nat) : JSString := (Nat.toDigits 10 n).map Char.toNat

/-- The IPv4 serializer. -/
def serializeIPv4 (address : Nat) : JSString :=
  decimal (address / 256 ^ 3 % 256) ++ js "." ++ decimal (address / 256 ^ 2 % 256) ++
    js "." ++ decimal (address / 256 % 256) ++ js "." ++ decimal (address % 256)

/-- The host parser, giving the serialized host. -/
def parseHost (P : HostAlgorithms) (input : JSString) (isOpaque : Bool) : Option JSString :=
  match input with
  | c :: rest =>
    if c == 0x5B then
      if rest.getLast? == some 0x5D then
        match P.ipv6 rest.dropLast with
        | some address => some (js "[" ++ address ++ js "]")
        | none => none
      else none
    else if isOpaque then
      if input.any isForbiddenHostCodePoint then none else some (P.percentEncode input)
    else
      match domainToASCII P input with
      | none => none
      | some asciiDomain =>
        if asciiDomain.any isForbiddenDomainCodePoint then none
        else if endsInANumber asciiDomain then (parseIPv4 asciiDomain).map serializeIPv4
        else some asciiDomain
  | [] => if isOpaque then some [] else none

/-- Code points that end the authority. -/
def isAuthorityEnd (special : Bool) (c : Nat) : Bool :=
  c == 0x2F || c == 0x3F || c == 0x23 || (special && c == 0x5C)

/-- The text after the last `@`, and whether an `@` was seen. -/
def afterLastAt : JSString → JSString × Bool
  | [] => ([], false)
  | c :: cs =>
    match afterLastAt cs with
    | (rest, true) => (rest, true)
    | (rest, false) => if c == 0x40 then (rest, true) else (c :: rest, false)

/-- Host state: the buffer up to the first `:` outside brackets, and the text
after that colon when there is one. -/
def splitHostPort : Bool → JSString → JSString × Option JSString
  | _, [] => ([], none)
  | insideBrackets, c :: cs =>
    if c == 0x3A && !insideBrackets then ([], some cs)
    else
      let inside := if c == 0x5B then true else if c == 0x5D then false else insideBrackets
      ((c :: (splitHostPort inside cs).1), (splitHostPort inside cs).2)

/-- Value of a string of decimal digits. -/
def decimalValue (digits : JSString) : Nat :=
  digits.foldl (fun acc d => acc * 10 + (d - 0x30)) 0

/-- Authority, host and port states: the serialized host. -/
def parseAuthority (P : HostAlgorithms) (special : Bool) (input : JSString) :
    Option JSString :=
  let authority := input.takeWhile (fun c => !isAuthorityEnd special c)
  let credentials := afterLastAt authority
  if credentials.2 && credentials.1.isEmpty then none
  else
    let hostPort := splitHostPort false credentials.1
    match hostPort.2 with
    | some port =>
      if hostPort.1.isEmpty then none
      else
        match parseHost P hostPort.1 (!special) with
        | none => none
        | some host =>
          if port.all isAsciiDigit && (port.isEmpty || decimalValue port ≤ 65535) then some host
          else none
    | none =>
      if special && hostPort.1.isEmpty then none
      else parseHost P hostPort.1 (!special)

/-- A Windows drive letter: a letter followed by `:` or `|`. -/
def isWindowsDriveLetter : JSString → Bool
  | [a, b] => isAsciiAlpha a && (b == 0x3A || b == 0x7C)
  | _ => false

/-- File host state. -/
def parseFileHost (P : HostAlgorithms) (input : JSString) : Option JSString :=
  let buffer := input.takeWhile (fun c => !isAuthorityEnd true c)
  if isWindowsDriveLetter buffer then some []
  else if buffer.isEmpty then some []
  else
    match parseHost P buffer false with
    | none => none
    | some host => if host == js "localhost" then some [] else some host

/-- File state and file slash state, without a base URL. -/
def parseFile (P : HostAlgorithms) : JSString → Option JSString
  | c1 :: c2 :: rest => if isSlash c1 && isSlash c2 then parseFileHost P rest else some []
  | _ => some []

/-- `new URL(input)`: `none` when the parser fails. -/
def parse (P : HostAlgorithms) (input : JSString) : Option URLRecord :=
  match parseScheme (removeTabAndNewline (stripC0ControlOrSpace input)) with
  | none => none
  | some (scheme, remaining) =>
    let host : Option JSString :=
      if scheme == js "file" then parseFile P remaining
      else if isSpecial scheme then parseAuthority P true (remaining.dropWhile isSlash)
      else
        match remaining with
        | c1 :: c2 :: rest =>
          if c1 == 0x2F && c2 == 0x2F then parseAuthority P false rest else some []
        | _ => some []
    match host with
    | none => none
    | some hostname => some ⟨scheme ++ js ":", hostname⟩

end URL

/-! ## `hooks/useUrlInput.js` -/

/-- The state cells of the `useUrlInput` hook; `error = none` is `null`. -/
structure UrlInputState where
  url : JSString
  error : Option JSString
  isLoading : Bool
  touched : Bool
  deriving DecidableEq, Repr

/-- A string-or-null state cell as a JavaScript value. -/
def orNull : Option JSString → JSValue
  | none => .null
  | some s => .string s

namespace useUrlInput

/-- The initial values given to `useState`. -/
def init : UrlInputState :=
  { url := js "", error := none, isLoading := false, touched := false }

/-- `handleChange`, applied to `e.target.value`. -/
def handleChange (value : JSString) (s : UrlInputState) : UrlInputState :=
  { s with url := value, error := if truthy (orNull s.error) then none else s.error }

/-- `handleBlur`: the call of `getUrlError` passes no argument. -/
def handleBlur (newURL : JSString → Option URLRecord) (s : UrlInputState) : UrlInputState :=
  if truthy (.string (trim s.url)) then
    let validationError := getUrlError newURL .undefined
    { s with touched := true, error := validationError }
  else { s with touched := true }

/-- `validate`: the new state and the returned boolean. -/
def validate (newURL : JSString → Option URLRecord) (s : UrlInputState) :
    UrlInputState × Bool :=
  let validationError := getUrlError newURL (.string s.url)
  ({ s with error := validationError }, !truthy (orNull validationError))

/-- `getNormalizedUrl`. -/
def getNormalizedUrl (s : UrlInputState) : JSString :=
  normalizeURL (.string s.url)

/-- `reset`. -/
def reset (_s : UrlInputState) : UrlInputState :=
  { url := js "", error := none, isLoading := false, touched := false }

/-- `setIsLoading`. -/
def setIsLoading (value : Bool) (s : UrlInputState) : UrlInputState :=
  { s with isLoading := value }

/-- `isValid`, recomputed at every render. -/
def isValid (newURL : JSString → Option URLRecord) (s : UrlInputState) : Bool :=
  isValidUrl newURL (.string s.url)

/-- The operations of the hook that change `url`, `error` or `touched`. -/
inductive Event where
  | handleChange (value : JSString) : Event
  | handleBlur : Event
  | validate : Event
  | reset : Event
  deriving DecidableEq, Repr

/-- One operation of the hook. -/
def step (newURL : JSString → Option URLRecord) (s : UrlInputState) : Event → UrlInputState
  | .handleChange value => handleChange value s
  | .handleBlur => handleBlur newURL s
  | .validate => (validate newURL s).1
  | .reset => reset s

/-- The state after a sequence of operations from the initial state. -/
def run (newURL : JSString → Option URLRecord) (events : List Event) : UrlInputState :=
  events.foldl (step newURL) init

end useUrlInput

/-! ## `components/features/UrlInput.jsx` -/

namespace UrlInput

/-- Truthiness of `showError = touched && error`, which is all the component
reads of it; the message rendered when it holds is `error`. -/
def showError (s : UrlInputState) : Bool :=
  s.touched && truthy (orNull s.error)

/-- `handleSubmit`: the state afterwards, and the argument `onSubmit` is called
with, if it is called. -/
def handleSubmit (newURL : JSString → Option URLRecord) (s : UrlInputState) :
    UrlInputState × Option JSString :=
  let validated := useUrlInput.validate newURL s
  if !validated.2 then (validated.1, none)
  else
    let normalizedUrl := useUrlInput.getNormalizedUrl validated.1
    (useUrlInput.setIsLoading false (useUrlInput.setIsLoading true validated.1),
      some normalizedUrl)

end UrlInput

/-! ## `services/api.js` -/

/-- JSON values. -/
inductive Json where
  | null : Json
  | bool (b : Bool) : Json
  | number (n : Int) : Json
  | string (s : JSString) : Json
  | array (items : List Json) : Json
  | object (fields : List (JSString × Json)) : Json

/-- First value of a key among a list of fields. -/
def Json.lookup (key : JSString) : List (JSString × Json) → Option Json
  | [] => none
  | (k, v) :: rest => if k == key then some v else Json.lookup key rest

/-- The argument of `fetch`. `body` is the value given to `JSON.stringify`. -/
structure Request where
  url : JSString
  method : JSString
  credentials : JSString
  headers : List (JSString × JSString)
  body : Option Json

/-- What the client reads of a `Response`. `json` is the outcome of
`response.json()`: the parsed body, or the message of the `SyntaxError` it
rejects with. -/
structure Response where
  status : Nat
  statusText : JSString
  json : Except JSString Json

/-- `response.ok`: the status is in the range 200 to 299. -/
def Response.ok (response : Response) : Bool :=
  200 ≤ response.status && response.status ≤ 299

/-- Errors thrown in the client, by constructor. -/
inductive JSError where
  | Error (message : JSString) : JSError
  | TypeError (message : JSString) : JSError
  | SyntaxError (message : JSString) : JSError
  deriving DecidableEq, Repr

/-- `err.message`. -/
def JSError.message : JSError → JSString
  | .Error m => m
  | .TypeError m => m
  | .SyntaxError m => m

/-- `await response.json()`. -/
def Response.awaitJson (response : Response) : Except JSError Json :=
  match response.json with
  | .ok value => .ok value
  | .error message => .error (.SyntaxError message)

/-- Decimal text of a number, as a template literal prints a status. -/
def numberToString (n : Nat) : JSString := (Nat.toDigits 10 n).map Char.toNat

/-- The text of the error thrown for a response that is not OK. -/
def httpError (response : Response) : JSError :=
  .Error (js "HTTP error! status: " ++ numberToString response.status ++ js ", " ++
    response.statusText)

/-- One call of an API function: the request given to `fetch` and the value
the function returns or the error it throws. -/
structure Call (α : Type) where
  request : Request
  result : Except JSError α

def URL_TTL : Int := 43200

/-- `shortenUrl`. `API_BASE_URL` comes from the build environment. -/
def shortenUrl (API_BASE_URL : JSString) (fetch : Request → Except JSError Response)
    (url : JSString) : Call Json :=
  let request : Request :=
    { url := API_BASE_URL ++ js "/api/v1/shorten"
      method := js "POST"
      credentials := js "include"
      headers := [(js "Content-Type", js "application/json")]
      body := some (.object [(js "url", .string url), (js "ttl", .number URL_TTL)]) }
  { request := request
    result :=
      match fetch request with
      | .error e => .error e
      | .ok response =>
        if !response.ok then .error (httpError response) else response.awaitJson }

/-- `getUrl`. -/
def getUrl (API_BASE_URL : JSString) (fetch : Request → Except JSError Response)
    (shortCode : JSString) : Call Json :=
  let request : Request :=
    { url := API_BASE_URL ++ js "/api/v1/urls/" ++ shortCode
      method := js "GET"
      credentials := js "include"
      headers := []
      body := none }
  { request := request
    result :=
      match fetch request with
      | .error e => .error e
      | .ok response =>
        if !response.ok then .error (httpError response) else response.awaitJson }

/-- `getUserUrls`; the component calls it with the defaults 20 and 0. -/
def getUserUrls (API_BASE_URL : JSString) (fetch : Request → Except JSError Response)
    (limit offset : Nat) : Call Json :=
  let request : Request :=
    { url := API_BASE_URL ++ js "/api/v1/urls?limit=" ++ numberToString limit ++
        js "&offset=" ++ numberToString offset
      method := js "GET"
      credentials := js "include"
      headers := []
      body := none }
  { request := request
    result :=
      match fetch request with
      | .error e => .error e
      | .ok response =>
        if !response.ok then
          if response.status == 401 then .ok (.object [(js "urls", .array [])])
          else .error (httpError response)
        else response.awaitJson }

/-- `deleteUrl`. -/
def deleteUrl (API_BASE_URL : JSString) (fetch : Request → Except JSError Response)
    (shortCode : JSString) : Call Bool :=
  let request : Request :=
    { url := API_BASE_URL ++ js "/api/v1/urls/" ++ shortCode
      method := js "DELETE"
      credentials := js "include"
      headers := []
      body := none }
  { request := request
    result :=
      match fetch request with
      | .error e => .error e
      | .ok response =>
        if !response.ok then .error (httpError response) else .ok true }

/-! ## `components/features/UrlList.jsx` -/

/-- An entry of the list, in the shape the component reads. -/
structure UrlEntry where
  short_code : JSString
  original_url : JSString
  expires_at : JSString
  deriving DecidableEq, Repr

namespace UrlList

/-- `handleDelete` of `UrlList`, on the list `urls` of the current render:
the argument given to `setUrls`. -/
def handleDelete (urls : List UrlEntry) (shortCode : JSString) : List UrlEntry :=
  urls.filter (fun u => u.short_code != shortCode)

end UrlList

namespace UrlItem

/-- `handleDelete` of `UrlItem`, as the change of the state that `onDelete`
acts on: `onDelete` runs after `deleteUrl` returned, and a thrown error is
caught and logged. -/
def handleDelete {σ : Type} (API_BASE_URL : JSString)
    (fetch : Request → Except JSError Response) (url : UrlEntry)
    (onDelete : JSString → σ → σ) (state : σ) : σ :=
  match (deleteUrl API_BASE_URL fetch url.short_code).result with
  | .ok _ => onDelete url.short_code state
  | .error _ => state

end UrlItem

/-! ## `pages/RedirectPage.jsx` -/

/-- The state cells of `RedirectPage`, and the arguments of the calls of
`window.location.replace` made so far (`none` is `undefined`). -/
structure RedirectState where
  error : Option JSString
  loading : Bool
  replaceCalls : List (Option Json)

namespace RedirectPage

def init : RedirectState :=
  { error := none, loading := true, replaceCalls := [] }

/-- `data.original_url` for a parsed JSON value: reading a property of
`null` throws, an object gives the value of its last such key and any other
value gives `undefined`. -/
def originalUrl : Json → Except JSError (Option Json)
  | .null => .error (.TypeError (js "Cannot read properties of null"))
  | .object fields => .ok (Json.lookup (js "original_url") fields.reverse)
  | _ => .ok none

/-- The `catch` block of `fetchAndRedirect`. -/
def onError (err : JSError) (s : RedirectState) : RedirectState :=
  { s with
    error :=
      if includes err.message (js "404") then some (js "Короткая ссылка не найдена")
      else some (js "Произошла ошибка")
    loading := false }

/-- `fetchAndRedirect`. `replace` is `window.location.replace`, which may
throw. -/
def fetchAndRedirect (API_BASE_URL : JSString) (fetch : Request → Except JSError Response)
    (replace : Option Json → Except JSError Unit) (shortCode : JSString)
    (s : RedirectState) : RedirectState :=
  match (getUrl API_BASE_URL fetch shortCode).result with
  | .error err => onError err s
  | .ok data =>
    match originalUrl data with
    | .error err => onError err s
    | .ok target =>
      let called := { s with replaceCalls := s.replaceCalls ++ [target] }
      match replace target with
      | .ok _ => called
      | .error err => onError err called

/-- The effect run for a `shortCode`. -/
def effect (API_BASE_URL : JSString) (fetch : Request → Except JSError Response)
    (replace : Option Json → Except JSError Unit) (shortCode : JSString)
    (s : RedirectState) : RedirectState :=
  if truthy (.string shortCode) then fetchAndRedirect API_BASE_URL fetch replace shortCode s
  else s

end RedirectPage

/-! ## Lemmas on strings -/

theorem js_https : js "https://" = [0x68, 0x74, 0x74, 0x70, 0x73, 0x3A, 0x2F, 0x2F] := by
  decide

theorem js_http : js "http://" = [0x68, 0x74, 0x74, 0x70, 0x3A, 0x2F, 0x2F] := by
  decide

theorem js_colonSlashes : js "://" = [0x3A, 0x2F, 0x2F] := by
  decide

theorem js_empty : js "" = [] := rfl

theorem matchesIgnoreCase_iff (letter c : Nat) :
    matchesIgnoreCase letter c = true ↔ (c = letter ∨ c + 0x20 = letter) := by
  simp [matchesIgnoreCase]

theorem asciiLower_eq_letter (c l : Nat) (h1 : 0x61 ≤ l) (h2 : l ≤ 0x7A) :
    asciiLower c = l ↔ (c = l ∨ c + 0x20 = l) := by
  unfold asciiLower
  split_ifs with h <;> omega

theorem asciiLower_eq_other (c l : Nat) (h : l < 0x41) :
    asciiLower c = l ↔ c = l := by
  unfold asciiLower
  split_ifs with h <;> omega

/-- The regular-expression test accepts exactly the strings that begin with
`http://` or `https://` up to ASCII case. -/
theorem testHttpScheme_iff (s : JSString) :
    testHttpScheme s = true ↔ BeginsWithHttp s := by
  unfold BeginsWithHttp BeginsWithIgnoreCase
  rw [js_http, js_https]
  rcases s with _ | ⟨a, _ | ⟨b, _ | ⟨c, _ | ⟨d, rest⟩⟩⟩⟩
  · simp [testHttpScheme]
  · simp [testHttpScheme]
  · simp [testHttpScheme]
  · simp [testHttpScheme]
  · rcases rest with _ | ⟨e, _ | ⟨f, _ | ⟨g, _ | ⟨h, rest⟩⟩⟩⟩ <;>
      simp [testHttpScheme, js_colonSlashes, matchesIgnoreCase_iff, asciiLower_eq_letter,
        asciiLower_eq_other] <;> omega

/-! ## Lemmas on `trim` -/

theorem trim_eq_rdropWhile (s : JSString) :
    trim s = (s.dropWhile isWhiteSpace).rdropWhile isWhiteSpace := rfl

theorem head_dropWhile_isWhiteSpace (s : JSString) (a : Nat) (t : JSString)
    (h : s.dropWhile isWhiteSpace = a :: t) : isWhiteSpace a = false := by
  induction s with
  | nil => simp at h
  | cons b u ih =>
    by_cases hb : isWhiteSpace b = true
    · rw [List.dropWhile_cons_of_pos hb] at h
      exact ih h
    · rw [List.dropWhile_cons_of_neg hb] at h
      simp only [List.cons.injEq] at h
      rw [← h.1]
      simpa using hb

/-- The trimmed string is empty exactly for strings of white space only. -/
theorem trim_eq_nil_iff (s : JSString) :
    trim s = [] ↔ ∀ c ∈ s, isWhiteSpace c = true := by
  rw [trim_eq_rdropWhile, List.rdropWhile_eq_nil_iff]
  constructor
  · intro h
    have hd : s.dropWhile isWhiteSpace = [] := by
      cases hs : s.dropWhile isWhiteSpace with
      | nil => rfl
      | cons a t =>
        have h1 := head_dropWhile_isWhiteSpace s a t hs
        have h2 := h a (by rw [hs]; exact List.mem_cons_self a t)
        rw [h1] at h2
        exact absurd h2 (by simp)
    exact List.dropWhile_eq_nil_iff.mp hd
  · intro h x hx
    exact h x ((List.dropWhile_suffix isWhiteSpace).subset hx)

/-- A non-empty trimmed string starts with a code unit that is not white space. -/
theorem trim_head (s : JSString) (a : Nat) (t : JSString) (h : trim s = a :: t) :
    isWhiteSpace a = false := by
  rw [trim_eq_rdropWhile] at h
  cases hs : s.dropWhile isWhiteSpace with
  | nil => rw [hs] at h; simp at h
  | cons b u =>
    have hb := head_dropWhile_isWhiteSpace s b u hs
    rw [hs] at h
    have hp : (a :: t) <+: (b :: u) := by
      rw [← h]; exact List.rdropWhile_prefix isWhiteSpace _
    obtain ⟨r, hr⟩ := hp
    simp only [List.cons_append, List.cons.injEq] at hr
    rw [hr.1]
    exact hb

/-- A non-empty trimmed string ends with a code unit that is not white space. -/
theorem trim_getLast (s : JSString) (h : trim s ≠ []) :
    isWhiteSpace ((trim s).getLast h) = false := by
  have := List.rdropWhile_last_not isWhiteSpace (s.dropWhile isWhiteSpace) h
  simpa using this

/-- A string with no white space at either end is left alone by `trim`. -/
theorem trim_eq_self (l : JSString)
    (hhead : ∀ a t, l = a :: t → isWhiteSpace a = false)
    (hlast : ∀ h : l ≠ [], isWhiteSpace (l.getLast h) = false) : trim l = l := by
  have hd : l.dropWhile isWhiteSpace = l := by
    cases l with
    | nil => rfl
    | cons a t =>
      have := hhead a t rfl
      rw [List.dropWhile_cons_of_neg (by simp [this])]
  rw [trim_eq_rdropWhile, hd, List.rdropWhile_eq_self_iff]
  intro h
  simp [hlast h]

theorem trim_trim (s : JSString) : trim (trim s) = trim s :=
  trim_eq_self (trim s) (fun a t h => trim_head s a t h) (fun h => trim_getLast s h)

/-- Putting `https://` in front of a non-empty trimmed string gives a string
that `trim` leaves alone. -/
theorem trim_https_append (s : JSString) (h : trim s ≠ []) :
    trim (js "https://" ++ trim s) = js "https://" ++ trim s := by
  apply trim_eq_self
  · intro a t hat
    rw [js_https] at hat
    simp only [List.cons_append, List.cons.injEq] at hat
    rw [← hat.1]
    decide
  · intro hne
    rw [List.getLast_append_of_ne_nil h]
    exact trim_getLast s h

theorem testHttpScheme_https_append (t : JSString) :
    testHttpScheme (js "https://" ++ t) = true := by
  rw [js_https]
  simp [testHttpScheme, js_colonSlashes, matchesIgnoreCase]

/-! ## `normalizeURL` -/

/-- The value of `normalizeURL` on a string, by cases on the trimmed string. -/
theorem normalizeURL_string (s : JSString) :
    normalizeURL (.string s) =
      if trim s = [] then [] else if testHttpScheme (trim s) = true then trim s
      else js "https://" ++ trim s := by
  cases s with
  | nil => simp [normalizeURL, truthy, typeofString, trim, js_empty]
  | cons a t =>
    by_cases h : trim (a :: t) = []
    · simp [normalizeURL, truthy, typeofString, h, js_empty]
    · simp [normalizeURL, truthy, typeofString, h]

/-- C1. `normalizeURL` scheme-qualifies its input: when the trimmed string is
not empty it is returned unchanged if it begins with `http://` or `https://`
up to case, and with `https://` in front otherwise, so `example.com` becomes
`https://example.com`; an empty or white-space-only string gives the empty
string; every non-empty result begins with `http://` or `https://` up to
case. -/
theorem normalizeURL_scheme_qualifies (s : JSString) :
    (trim s ≠ [] → BeginsWithHttp (trim s) → normalizeURL (.string s) = trim s) ∧
    (trim s ≠ [] → ¬ BeginsWithHttp (trim s) →
      normalizeURL (.string s) = js "https://" ++ trim s) ∧
    ((∀ c ∈ s, isWhiteSpace c = true) → normalizeURL (.string s) = js "") ∧
    normalizeURL (.string (js "example.com")) = js "https://example.com" ∧
    (normalizeURL (.string s) ≠ js "" → BeginsWithHttp (normalizeURL (.string s))) := by
  refine ⟨?_, ?_, ?_, ?_, ?_⟩
  · intro h hb
    rw [normalizeURL_string, if_neg h, if_pos ((testHttpScheme_iff _).mpr hb)]
  · intro h hb
    have ht : ¬ testHttpScheme (trim s) = true := fun ht => hb ((testHttpScheme_iff _).mp ht)
    rw [normalizeURL_string, if_neg h, if_neg ht]
  · intro h
    rw [normalizeURL_string, if_pos ((trim_eq_nil_iff s).mpr h), js_empty]
  · decide
  · intro h
    rw [normalizeURL_string, js_empty] at h
    rw [normalizeURL_string]
    by_cases h0 : trim s = []
    · rw [if_pos h0] at h
      exact absurd rfl h
    · rw [if_neg h0]
      by_cases ht : testHttpScheme (trim s) = true
      · rw [if_pos ht]
        exact (testHttpScheme_iff _).mp ht
      · rw [if_neg ht]
        exact (testHttpScheme_iff _).mp (testHttpScheme_https_append _)

/-- C10. `normalizeURL` is idempotent, gives the same result on a string and
on its trimmed form, and its result has no white space at either end. -/
theorem normalizeURL_idempotent (s : JSString) :
    normalizeURL (.string (normalizeURL (.string s))) = normalizeURL (.string s) ∧
    normalizeURL (.string s) = normalizeURL (.string (trim s)) ∧
    (∀ a t, normalizeURL (.string s) = a :: t → isWhiteSpace a = false) ∧
    (∀ h : normalizeURL (.string s) ≠ [],
      isWhiteSpace ((normalizeURL (.string s)).getLast h) = false) := by
  have key : trim (normalizeURL (.string s)) = normalizeURL (.string s) ∧
      (normalizeURL (.string s) ≠ [] → testHttpScheme (normalizeURL (.string s)) = true) := by
    rw [normalizeURL_string]
    by_cases h0 : trim s = []
    · rw [if_pos h0]
      exact ⟨rfl, fun h => absurd rfl h⟩
    · rw [if_neg h0]
      by_cases ht : testHttpScheme (trim s) = true
      · rw [if_pos ht]
        exact ⟨trim_trim s, fun _ => ht⟩
      · rw [if_neg ht]
        exact ⟨trim_https_append s h0, fun _ => testHttpScheme_https_append _⟩
  refine ⟨?_, ?_, ?_, ?_⟩
  · rw [normalizeURL_string (normalizeURL (.string s)), key.1]
    by_cases h0 : normalizeURL (.string s) = []
    · rw [if_pos h0, h0]
    · rw [if_neg h0, if_pos (key.2 h0)]
  · rw [normalizeURL_string s, normalizeURL_string (trim s), trim_trim]
  · intro a t h
    have := key.1
    rw [h] at this
    exact trim_head _ a t this
  · intro h
    have h2 : trim (normalizeURL (.string s)) ≠ [] := by rw [key.1]; exact h
    have := trim_getLast (normalizeURL (.string s)) h2
    simpa only [key.1] using this


/-! ## The parser on long inputs -/

theorem stripC0ControlOrSpace_eq_self (s : JSString)
    (h : ∀ c ∈ s, URL.isC0ControlOrSpace c = false) : URL.stripC0ControlOrSpace s = s := by
  have hd : s.dropWhile URL.isC0ControlOrSpace = s := by
    cases s with
    | nil => rfl
    | cons a t =>
      have := h a (List.mem_cons_self a t)
      rw [List.dropWhile_cons_of_neg (by simp [this])]
  have hr : s.rdropWhile URL.isC0ControlOrSpace = s := by
    rw [List.rdropWhile_eq_self_iff]
    intro hl
    simp [h _ (List.getLast_mem hl)]
  unfold URL.stripC0ControlOrSpace
  rw [hd]
  exact hr

theorem removeTabAndNewline_eq_self (s : JSString)
    (h : ∀ c ∈ s, URL.isC0ControlOrSpace c = false) : URL.removeTabAndNewline s = s := by
  unfold URL.removeTabAndNewline
  rw [List.filter_eq_self]
  intro c hc
  have := h c hc
  simp only [URL.isC0ControlOrSpace, decide_eq_false_iff_not, not_le] at this
  simp only [URL.isTabOrNewline, Bool.not_eq_true', Bool.or_eq_false_iff, beq_eq_false_iff_ne]
  omega

/-- The code units of the strings `a.b/xx…x`, with `n` letters `x`. -/
theorem longInput_mem (n c : Nat) (hc : c ∈ js "a.b/" ++ List.replicate n 0x78) :
    c = 0x61 ∨ c = 0x2E ∨ c = 0x62 ∨ c = 0x2F ∨ c = 0x78 := by
  have hj : js "a.b/" = [0x61, 0x2E, 0x62, 0x2F] := by decide
  rw [hj] at hc
  simp only [List.mem_append, List.mem_cons, List.mem_replicate] at hc
  simp at hc
  omega

theorem parse_longInput (P : URL.HostAlgorithms) (n : Nat) :
    URL.parse P (js "a.b/" ++ List.replicate n 0x78) = none ∧
    URL.parse P (js "https://" ++ (js "a.b/" ++ List.replicate n 0x78)) =
      some ⟨js "https:", js "a.b"⟩ := by
  have hall : ∀ c ∈ js "a.b/" ++ List.replicate n 0x78, URL.isC0ControlOrSpace c = false := by
    intro c hc
    simp only [URL.isC0ControlOrSpace, decide_eq_false_iff_not, not_le]
    have := longInput_mem n c hc
    omega
  have hall2 : ∀ c ∈ js "https://" ++ (js "a.b/" ++ List.replicate n 0x78),
      URL.isC0ControlOrSpace c = false := by
    intro c hc
    rw [List.mem_append] at hc
    rcases hc with h | h
    · rw [js_https] at h
      simp only [URL.isC0ControlOrSpace, decide_eq_false_iff_not, not_le]
      simp at h
      omega
    · exact hall c h
  constructor
  · unfold URL.parse
    rw [stripC0ControlOrSpace_eq_self _ hall, removeTabAndNewline_eq_self _ hall]
    rfl
  · unfold URL.parse
    rw [stripC0ControlOrSpace_eq_self _ hall2, removeTabAndNewline_eq_self _ hall2]
    rfl

theorem trim_longInput (n : Nat) :
    trim (js "a.b/" ++ List.replicate n 0x78) = js "a.b/" ++ List.replicate n 0x78 := by
  apply trim_eq_self
  · intro a t h
    have : a = 0x61 := by
      have h2 : (js "a.b/" ++ List.replicate n 0x78).head? = some 0x61 := rfl
      rw [h] at h2
      simpa using h2
    rw [this]
    decide
  · intro hne
    have := longInput_mem n _ (List.getLast_mem hne)
    rcases this with h | h | h | h | h <;> rw [h] <;> decide

theorem isValidUrl_longInput (P : URL.HostAlgorithms) (n : Nat) :
    isValidUrl (URL.parse P) (.string (js "a.b/" ++ List.replicate n 0x78)) = true := by
  obtain ⟨h1, h2⟩ := parse_longInput P n
  have ht : truthy (.string (js "a.b/" ++ List.replicate n 0x78)) = true := rfl
  have hinc : includes (js "a.b") (js ".") = true := by decide
  have hj : js "a.b/" ≠ [] := by decide
  simp [isValidUrl, ht, typeofString, trim_longInput, h1, h2, hinc, hj]

theorem normalizeURL_longInput (n : Nat) :
    (normalizeURL (.string (js "a.b/" ++ List.replicate n 0x78))).length = n + 12 := by
  have h0 : trim (js "a.b/" ++ List.replicate n 0x78) ≠ [] := by
    rw [trim_longInput]
    exact List.cons_ne_nil _ _
  have ht : ¬ testHttpScheme (trim (js "a.b/" ++ List.replicate n 0x78)) = true := by
    rw [trim_longInput]
    have : testHttpScheme (js "a.b/" ++ List.replicate n 0x78) = false := rfl
    simp [this]
  rw [normalizeURL_string, if_neg h0, if_neg ht, trim_longInput]
  simp only [List.length_append, List.length_replicate]
  have a1 : (js "https://").length = 8 := by decide
  have a2 : (js "a.b/").length = 4 := by decide
  omega

/-! ## `getUrlError` -/

/-- The value of `getUrlError` on a string, as its chain of tests. -/
theorem getUrlError_string (newURL : JSString → Option URLRecord) (input : JSString) :
    getUrlError newURL (.string input) =
      if trim input = [] then some (js "URL cannot be empty")
      else if isValidUrl newURL (.string input) = false then
        some (js "Provide a valid URL (Ex. https://example.com)")
      else if (normalizeURL (.string input)).length > 2048 then
        some (js "URL is too long (maximum of 2048 characters)")
      else none := by
  cases input with
  | nil => simp [getUrlError, truthy, trim]
  | cons a t =>
    by_cases h : trim (a :: t) = []
    · simp [getUrlError, truthy, h]
    · by_cases hv : isValidUrl newURL (.string (a :: t)) = false
      · simp [getUrlError, truthy, h, hv]
      · simp [getUrlError, truthy, h, hv]

theorem isValidUrl_trim_ne_nil (newURL : JSString → Option URLRecord) (input : JSString)
    (h : isValidUrl newURL (.string input) = true) : trim input ≠ [] := by
  intro h0
  cases input with
  | nil => simp [isValidUrl, truthy] at h
  | cons a t => simp [isValidUrl, truthy, typeofString, h0] at h

theorem messages_distinct :
    js "URL cannot be empty" ≠ js "Provide a valid URL (Ex. https://example.com)" ∧
    js "URL cannot be empty" ≠ js "URL is too long (maximum of 2048 characters)" ∧
    js "Provide a valid URL (Ex. https://example.com)" ≠
      js "URL is too long (maximum of 2048 characters)" := by
  decide

/-- No result of `getUrlError` is the empty string. -/
theorem getUrlError_ne_empty (newURL : JSString → Option URLRecord) (v : JSValue) :
    getUrlError newURL v ≠ some [] := by
  have e1 : js "URL cannot be empty" ≠ [] := by decide
  have e2 : js "Provide a valid URL (Ex. https://example.com)" ≠ [] := by decide
  have e3 : js "URL is too long (maximum of 2048 characters)" ≠ [] := by decide
  cases v with
  | undefined => simpa [getUrlError] using e1
  | null => simpa [getUrlError] using e1
  | string s =>
    rw [getUrlError_string]
    split_ifs <;> simp [e1, e2, e3]

/-- C6. `getUrlError` reports the first failing check in a fixed order: the
empty message exactly for empty and white-space-only input; otherwise the
invalid message exactly when `isValidUrl` is false; otherwise the too-long
message exactly when the normalized URL has more than 2048 code units, and
`null` otherwise. A valid input of normalized length 2048 is accepted and one
of 2049 is rejected; for a valid input without scheme the limit counts the
eight code units of `https://` put in front of the trimmed input. -/
theorem getUrlError_order (newURL : JSString → Option URLRecord) (input : JSString) :
    (getUrlError newURL (.string input) = some (js "URL cannot be empty") ↔
      ∀ c ∈ input, isWhiteSpace c = true) ∧
    ((¬ ∀ c ∈ input, isWhiteSpace c = true) →
      (getUrlError newURL (.string input) =
          some (js "Provide a valid URL (Ex. https://example.com)") ↔
        isValidUrl newURL (.string input) = false)) ∧
    (isValidUrl newURL (.string input) = true →
      (getUrlError newURL (.string input) =
          some (js "URL is too long (maximum of 2048 characters)") ↔
        (normalizeURL (.string input)).length > 2048) ∧
      (getUrlError newURL (.string input) = none ↔
        (normalizeURL (.string input)).length ≤ 2048)) ∧
    (isValidUrl newURL (.string input) = true →
      (normalizeURL (.string input)).length = 2048 →
      getUrlError newURL (.string input) = none) ∧
    (isValidUrl newURL (.string input) = true →
      (normalizeURL (.string input)).length = 2049 →
      getUrlError newURL (.string input) =
        some (js "URL is too long (maximum of 2048 characters)")) ∧
    (isValidUrl newURL (.string input) = true → ¬ BeginsWithHttp (trim input) →
      (getUrlError newURL (.string input) =
          some (js "URL is too long (maximum of 2048 characters)") ↔
        (trim input).length + 8 > 2048)) := by
  obtain ⟨d1, d2, d3⟩ := messages_distinct
  have hvalid : isValidUrl newURL (.string input) = true →
      ((getUrlError newURL (.string input) =
          some (js "URL is too long (maximum of 2048 characters)") ↔
        (normalizeURL (.string input)).length > 2048) ∧
      (getUrlError newURL (.string input) = none ↔
        (normalizeURL (.string input)).length ≤ 2048)) := by
    intro hv
    have h0 := isValidUrl_trim_ne_nil newURL input hv
    rw [getUrlError_string, if_neg h0, if_neg (by simp [hv])]
    by_cases hl : (normalizeURL (.string input)).length > 2048
    · rw [if_pos hl]
      simp only [true_iff, reduceCtorEq, false_iff, not_le]
      exact ⟨hl, hl⟩
    · rw [if_neg hl]
      simp only [reduceCtorEq, false_iff, true_iff]
      exact ⟨hl, Nat.le_of_not_gt hl⟩
  refine ⟨?_, ?_, hvalid, ?_, ?_, ?_⟩
  · rw [← trim_eq_nil_iff, getUrlError_string]
    constructor
    · intro h
      by_contra h0
      rw [if_neg h0] at h
      split_ifs at h
      · simp only [Option.some.injEq] at h
        exact d1 h.symm
      · simp only [Option.some.injEq] at h
        exact d2 h.symm
    · intro h
      rw [if_pos h]
  · intro hws
    have h0 : trim input ≠ [] := fun h => hws ((trim_eq_nil_iff input).mp h)
    rw [getUrlError_string, if_neg h0]
    constructor
    · intro h
      by_contra hv
      rw [if_neg hv] at h
      split_ifs at h
      · simp only [Option.some.injEq] at h
        exact d3 h.symm
    · intro hv
      rw [if_pos hv]
  · intro hv hl
    exact (hvalid hv).2.mpr (by omega)
  · intro hv hl
    exact (hvalid hv).1.mpr (by omega)
  · intro hv hb
    have h0 := isValidUrl_trim_ne_nil newURL input hv
    have ht : ¬ testHttpScheme (trim input) = true :=
      fun ht => hb ((testHttpScheme_iff _).mp ht)
    have hn : normalizeURL (.string input) = js "https://" ++ trim input := by
      rw [normalizeURL_string, if_neg h0, if_neg ht]
    rw [(hvalid hv).1, hn, List.length_append, js_https]
    simp only [List.length_cons, List.length_nil]
    omega

/-- C6 at the boundary: the input `a.b/xx…x` of 2040 code units, normalized
to 2048, is accepted, and the one of 2041 code units, normalized to 2049, is
rejected as too long. -/
theorem getUrlError_order_witness :
    (js "a.b/" ++ List.replicate 2037 0x78).length = 2041 ∧
    getUrlError (URL.parse URL.asciiHosts) (.string (js "a.b/" ++ List.replicate 2036 0x78)) =
      none ∧
    getUrlError (URL.parse URL.asciiHosts) (.string (js "a.b/" ++ List.replicate 2037 0x78)) =
      some (js "URL is too long (maximum of 2048 characters)") :=
  ⟨by
      have a2 : (js "a.b/").length = 4 := by decide
      rw [List.length_append, List.length_replicate, a2],
    (getUrlError_order (URL.parse URL.asciiHosts) (js "a.b/" ++ List.replicate 2036 0x78)).2.2.2.1
      (isValidUrl_longInput _ 2036) (normalizeURL_longInput 2036),
    (getUrlError_order (URL.parse URL.asciiHosts)
      (js "a.b/" ++ List.replicate 2037 0x78)).2.2.2.2.1
      (isValidUrl_longInput _ 2037) (normalizeURL_longInput 2037)⟩

/-! ## `useUrlInput` -/

theorem run_append_singleton (newURL : JSString → Option URLRecord)
    (events : List useUrlInput.Event) (e : useUrlInput.Event) :
    useUrlInput.run newURL (events ++ [e]) =
      useUrlInput.step newURL (useUrlInput.run newURL events) e := by
  simp [useUrlInput.run, List.foldl_append]

/-- In every reachable state the error is `null` or a non-empty message, and
`touched` holds only if `handleBlur` ran with no `reset` after it. -/
theorem run_invariant (newURL : JSString → Option URLRecord)
    (events : List useUrlInput.Event) :
    (useUrlInput.run newURL events).error ≠ some [] ∧
    ((useUrlInput.run newURL events).touched = true →
      ∃ before after, events = before ++ useUrlInput.Event.handleBlur :: after ∧
        useUrlInput.Event.reset ∉ after) := by
  induction events using List.reverseRecOn with
  | nil => simp [useUrlInput.run, useUrlInput.init]
  | append_singleton events e ih =>
    rw [run_append_singleton]
    obtain ⟨ihe, iht⟩ := ih
    cases e with
    | handleChange value =>
      refine ⟨?_, ?_⟩
      · simp only [useUrlInput.step, useUrlInput.handleChange]
        split_ifs
        · simp
        · exact ihe
      · intro ht
        obtain ⟨before, after, hs, hr⟩ := iht ht
        refine ⟨before, after ++ [.handleChange value], ?_, ?_⟩
        · rw [hs]; simp
        · simp [hr]
    | handleBlur =>
      refine ⟨?_, ?_⟩
      · simp only [useUrlInput.step, useUrlInput.handleBlur]
        split_ifs
        · exact getUrlError_ne_empty newURL .undefined
        · exact ihe
      · intro _
        exact ⟨events, [], rfl, by simp⟩
    | validate =>
      refine ⟨?_, ?_⟩
      · simp only [useUrlInput.step, useUrlInput.validate]
        exact getUrlError_ne_empty newURL _
      · intro ht
        obtain ⟨before, after, hs, hr⟩ := iht ht
        refine ⟨before, after ++ [.validate], ?_, ?_⟩
        · rw [hs]; simp
        · simp [hr]
    | reset =>
      simp [useUrlInput.step, useUrlInput.reset]

/-- C5. Validation errors are shown only on blur: in every state reached from
the initial one by `handleChange`, `handleBlur`, `validate` and `reset`, an
error is displayed only if `handleBlur` has run since the last `reset`; and
right after any `handleChange` the error is `null` and nothing is
displayed. -/
theorem showError_only_after_blur (newURL : JSString → Option URLRecord)
    (events : List useUrlInput.Event) :
    (UrlInput.showError (useUrlInput.run newURL events) = true →
      ∃ before after, events = before ++ useUrlInput.Event.handleBlur :: after ∧
        useUrlInput.Event.reset ∉ after) ∧
    (∀ value,
      (useUrlInput.run newURL (events ++ [.handleChange value])).error = none ∧
      UrlInput.showError (useUrlInput.run newURL (events ++ [.handleChange value])) =
        false) := by
  obtain ⟨ihe, iht⟩ := run_invariant newURL events
  refine ⟨?_, ?_⟩
  · intro h
    simp only [UrlInput.showError, Bool.and_eq_true] at h
    exact iht h.1
  · intro value
    have herr : (useUrlInput.run newURL (events ++ [.handleChange value])).error = none := by
      rw [run_append_singleton]
      simp only [useUrlInput.step, useUrlInput.handleChange]
      cases he : (useUrlInput.run newURL events).error with
      | none => simp [orNull, truthy]
      | some e =>
        cases e with
        | nil => exact absurd he ihe
        | cons a t => simp [orNull, truthy]
    refine ⟨herr, ?_⟩
    simp [UrlInput.showError, herr, orNull, truthy]


/-! ## `services/api.js` -/

/-- C3, as amended. `getUserUrls` treats a 401 on listing as no URLs: for a
response of status 401 it returns the object with an empty `urls` array; for
an OK response it returns the outcome of `response.json()`, which is the
parsed body when the body parses and the parse error when it does not; it
throws the error that carries the status exactly when the response is not OK
and its status is not 401; and it throws at all exactly then or when the
response is OK and its body does not parse. -/
theorem getUserUrls_unauthorized_is_empty (API_BASE_URL : JSString)
    (fetch : Request → Except JSError Response) (limit offset : Nat) (response : Response)
    (h : fetch
        ⟨API_BASE_URL ++ js "/api/v1/urls?limit=" ++ numberToString limit ++
          js "&offset=" ++ numberToString offset, js "GET", js "include", [], none⟩ =
      .ok response) :
    (response.status = 401 →
      (getUserUrls API_BASE_URL fetch limit offset).result =
        .ok (.object [(js "urls", .array [])])) ∧
    (response.ok = true →
      (getUserUrls API_BASE_URL fetch limit offset).result = response.awaitJson) ∧
    (response.ok = true → ∀ body, response.json = .ok body →
      (getUserUrls API_BASE_URL fetch limit offset).result = .ok body) ∧
    (response.ok = true → ∀ message, response.json = .error message →
      (getUserUrls API_BASE_URL fetch limit offset).result =
        .error (.SyntaxError message)) ∧
    ((getUserUrls API_BASE_URL fetch limit offset).result = .error (httpError response) ↔
      (response.ok = false ∧ response.status ≠ 401)) ∧
    ((∃ e, (getUserUrls API_BASE_URL fetch limit offset).result = .error e) ↔
      ((response.ok = false ∧ response.status ≠ 401) ∨
        (response.ok = true ∧ ∃ message, response.json = .error message))) ∧
    ((response.ok = false ∧ response.status ≠ 401) →
      ∃ e, (getUserUrls API_BASE_URL fetch limit offset).result = .error e ∧
        e.message = js "HTTP error! status: " ++ numberToString response.status ++ js ", " ++
          response.statusText) := by
  have hres : (getUserUrls API_BASE_URL fetch limit offset).result =
      if !response.ok then
        if response.status == 401 then .ok (.object [(js "urls", .array [])])
        else .error (httpError response)
      else response.awaitJson := by
    simp only [getUserUrls]
    rw [h]
  rw [hres]
  refine ⟨?_, ?_, ?_, ?_, ?_, ?_, ?_⟩
  · intro hs
    have hok : response.ok = false := by simp [Response.ok, hs]
    simp [hok, hs]
  · intro hok
    simp [hok]
  · intro hok body hb
    simp [hok, Response.awaitJson, hb]
  · intro hok message hm
    simp [hok, Response.awaitJson, hm]
  · constructor
    · intro hr
      by_cases hok : response.ok = true
      · simp only [hok, Bool.not_true, Bool.false_eq_true, if_false] at hr
        unfold Response.awaitJson at hr
        cases hj : response.json with
        | ok v => rw [hj] at hr; simp at hr
        | error m => rw [hj] at hr; simp [httpError] at hr
      · have hok2 : response.ok = false := by simpa using hok
        refine ⟨hok2, ?_⟩
        intro hs
        simp [hok2, hs] at hr
    · rintro ⟨hok, hs⟩
      simp [hok, hs]
  · by_cases hok : response.ok = true
    · simp only [hok, Bool.not_true, Bool.false_eq_true, if_false]
      unfold Response.awaitJson
      cases hj : response.json with
      | ok v => simp
      | error m => simp
    · have hok2 : response.ok = false := by simpa using hok
      by_cases hs : response.status = 401
      · simp [hok2, hs]
      · simp [hok2, hs]
  · rintro ⟨hok, hs⟩
    exact ⟨httpError response, by simp [hok, hs], rfl⟩

/-- C3, as amended, at a response of status 401 with no JSON body. -/
theorem getUserUrls_unauthorized_is_empty_witness :
    (getUserUrls (js "") (fun _ => .ok ⟨401, js "Unauthorized", .error (js "")⟩) 20 0).result =
      .ok (.object [(js "urls", .array [])]) :=
  (getUserUrls_unauthorized_is_empty (js "")
    (fun _ => .ok ⟨401, js "Unauthorized", .error (js "")⟩) 20 0
    ⟨401, js "Unauthorized", .error (js "")⟩ rfl).1 rfl

/-- C3 as first stated fails at an OK response without a JSON body: for the
answer 204 with an empty body `getUserUrls` throws the `SyntaxError` of
`response.json()` instead of returning a parsed body, so it throws although
the response is OK. -/
theorem getUserUrls_throws_on_ok_response :
    Response.ok ⟨204, js "No Content", .error (js "Unexpected end of JSON input")⟩ = true ∧
    (getUserUrls (js "")
        (fun _ => .ok ⟨204, js "No Content", .error (js "Unexpected end of JSON input")⟩)
        20 0).result = .error (.SyntaxError (js "Unexpected end of JSON input")) ∧
    ¬ ((∃ e, (getUserUrls (js "")
          (fun _ => .ok ⟨204, js "No Content", .error (js "Unexpected end of JSON input")⟩)
          20 0).result = .error e) ↔
        (Response.ok ⟨204, js "No Content", .error (js "Unexpected end of JSON input")⟩ =
            false ∧
          Response.status ⟨204, js "No Content", .error (js "Unexpected end of JSON input")⟩ ≠
            401)) := by
  refine ⟨rfl, rfl, ?_⟩
  intro hiff
  have hne := (hiff.mp ⟨_, rfl⟩).1
  exact absurd hne (by decide)

/-- C4. Every shorten request carries the default TTL: `shortenUrl` gives
`fetch` a POST to `/api/v1/shorten` whose JSON body has exactly the fields
`url`, equal to the argument, and `ttl`, equal to 43200 whatever the URL; what
`shortenUrl` returns or throws is decided by the answer of `fetch` to that
request. -/
theorem shortenUrl_sends_default_ttl (API_BASE_URL : JSString)
    (fetch : Request → Except JSError Response) (url : JSString) :
    (shortenUrl API_BASE_URL fetch url).request =
      ⟨API_BASE_URL ++ js "/api/v1/shorten", js "POST", js "include",
        [(js "Content-Type", js "application/json")],
        some (.object [(js "url", .string url), (js "ttl", .number 43200)])⟩ ∧
    (shortenUrl API_BASE_URL fetch url).result =
      (match fetch
          ⟨API_BASE_URL ++ js "/api/v1/shorten", js "POST", js "include",
            [(js "Content-Type", js "application/json")],
            some (.object [(js "url", .string url), (js "ttl", .number 43200)])⟩ with
        | .error e => .error e
        | .ok response =>
          if response.ok = true then response.awaitJson else .error (httpError response)) ∧
    (∀ e, fetch
        ⟨API_BASE_URL ++ js "/api/v1/shorten", js "POST", js "include",
          [(js "Content-Type", js "application/json")],
          some (.object [(js "url", .string url), (js "ttl", .number 43200)])⟩ = .error e →
      (shortenUrl API_BASE_URL fetch url).result = .error e) ∧
    (∀ response, fetch
        ⟨API_BASE_URL ++ js "/api/v1/shorten", js "POST", js "include",
          [(js "Content-Type", js "application/json")],
          some (.object [(js "url", .string url), (js "ttl", .number 43200)])⟩ =
        .ok response →
      (response.ok = true →
        (shortenUrl API_BASE_URL fetch url).result = response.awaitJson) ∧
      (response.ok = false →
        (shortenUrl API_BASE_URL fetch url).result = .error (httpError response))) ∧
    (shortenUrl API_BASE_URL fetch url).request.method = js "POST" ∧
    (shortenUrl API_BASE_URL fetch url).request.url = API_BASE_URL ++ js "/api/v1/shorten" ∧
    (shortenUrl API_BASE_URL fetch url).request.body =
      some (.object [(js "url", .string url), (js "ttl", .number 43200)]) ∧
    (∀ other : JSString, ∀ fields,
      (shortenUrl API_BASE_URL fetch other).request.body = some (.object fields) →
      Json.lookup (js "ttl") fields = some (.number 43200)) := by
  have hres : (shortenUrl API_BASE_URL fetch url).result =
      (match fetch
          ⟨API_BASE_URL ++ js "/api/v1/shorten", js "POST", js "include",
            [(js "Content-Type", js "application/json")],
            some (.object [(js "url", .string url), (js "ttl", .number 43200)])⟩ with
        | .error e => .error e
        | .ok response =>
          if response.ok = true then response.awaitJson else .error (httpError response)) := by
    simp only [shortenUrl, URL_TTL]
    cases fetch
        ⟨API_BASE_URL ++ js "/api/v1/shorten", js "POST", js "include",
          [(js "Content-Type", js "application/json")],
          some (.object [(js "url", .string url), (js "ttl", .number 43200)])⟩ with
    | error e => rfl
    | ok response => cases hok : response.ok <;> simp [hok]
  refine ⟨rfl, hres, ?_, ?_, rfl, rfl, rfl, ?_⟩
  · intro e he
    rw [hres, he]
  · intro response hr
    rw [hres, hr]
    constructor
    · intro hok
      simp [hok]
    · intro hok
      simp [hok]
  · intro other fields hf
    simp only [shortenUrl, Option.some.injEq, Json.object.injEq] at hf
    rw [← hf]
    rfl

/-! ## `UrlList` -/

/-- C8. Deletion failures are propagated and leave the list unchanged:
`deleteUrl` returns `true` for an OK response and throws for any other;
`UrlItem.handleDelete` applies `onDelete` after `deleteUrl` returned and
leaves the state as it was whenever `deleteUrl` threw; and `UrlList.handleDelete`
gives the previous list without the entries of that short code, the others
kept in their order. -/
theorem deleteUrl_failure_keeps_list (API_BASE_URL : JSString)
    (fetch : Request → Except JSError Response) (url : UrlEntry) (urls : List UrlEntry)
    (response : Response)
    (h : fetch (deleteUrl API_BASE_URL fetch url.short_code).request = .ok response) :
    (response.ok = true →
      (deleteUrl API_BASE_URL fetch url.short_code).result = .ok true ∧
      UrlItem.handleDelete API_BASE_URL fetch url
          (fun shortCode list => UrlList.handleDelete list shortCode) urls =
        UrlList.handleDelete urls url.short_code) ∧
    (response.ok = false →
      (deleteUrl API_BASE_URL fetch url.short_code).result = .error (httpError response) ∧
      UrlItem.handleDelete API_BASE_URL fetch url
          (fun shortCode list => UrlList.handleDelete list shortCode) urls = urls) ∧
    (∀ (σ : Type) (onDelete : JSString → σ → σ) (state : σ),
      (response.ok = false →
        UrlItem.handleDelete API_BASE_URL fetch url onDelete state = state) ∧
      (response.ok = true →
        UrlItem.handleDelete API_BASE_URL fetch url onDelete state =
          onDelete url.short_code state)) ∧
    (∀ (other : Request → Except JSError Response) (e : JSError) (σ : Type)
        (onDelete : JSString → σ → σ) (state : σ),
      (deleteUrl API_BASE_URL other url.short_code).result = .error e →
      UrlItem.handleDelete API_BASE_URL other url onDelete state = state) ∧
    (UrlList.handleDelete urls url.short_code).Sublist urls ∧
    (∀ u, u ∈ UrlList.handleDelete urls url.short_code ↔
      (u ∈ urls ∧ u.short_code ≠ url.short_code)) ∧
    (∀ u, u.short_code ≠ url.short_code →
      (UrlList.handleDelete urls url.short_code).count u = urls.count u) := by
  have hres : (deleteUrl API_BASE_URL fetch url.short_code).result =
      if !response.ok then .error (httpError response) else .ok true := by
    simp only [deleteUrl] at h ⊢
    rw [h]
  have hgen : ∀ (σ : Type) (onDelete : JSString → σ → σ) (state : σ),
      (response.ok = false →
        UrlItem.handleDelete API_BASE_URL fetch url onDelete state = state) ∧
      (response.ok = true →
        UrlItem.handleDelete API_BASE_URL fetch url onDelete state =
          onDelete url.short_code state) := by
    intro σ onDelete state
    unfold UrlItem.handleDelete
    rw [hres]
    constructor
    · intro hok
      simp [hok]
    · intro hok
      simp [hok]
  refine ⟨?_, ?_, hgen, ?_, ?_, ?_, ?_⟩
  · intro hok
    exact ⟨by rw [hres]; simp [hok], ((hgen _ _ urls).2 hok)⟩
  · intro hok
    exact ⟨by rw [hres]; simp [hok], ((hgen _ _ urls).1 hok)⟩
  · intro other e σ onDelete state he
    unfold UrlItem.handleDelete
    rw [he]
  · exact List.filter_sublist urls
  · intro u
    simp [UrlList.handleDelete]
  · intro u hu
    unfold UrlList.handleDelete
    exact List.count_filter (by simpa using hu)

/-- C8 at a list of two entries and a 404 answer to the deletion of the
first. -/
theorem deleteUrl_failure_keeps_list_witness :
    UrlItem.handleDelete (js "") (fun _ => .ok ⟨404, js "Not Found", .error (js "")⟩)
        ⟨js "abc123", js "https://example.com", js ""⟩
        (fun shortCode list => UrlList.handleDelete list shortCode)
        [⟨js "abc123", js "https://example.com", js ""⟩,
          ⟨js "xyz789", js "https://example.org", js ""⟩] =
      [⟨js "abc123", js "https://example.com", js ""⟩,
        ⟨js "xyz789", js "https://example.org", js ""⟩] :=
  ((deleteUrl_failure_keeps_list (js "")
    (fun _ => .ok ⟨404, js "Not Found", .error (js "")⟩)
    ⟨js "abc123", js "https://example.com", js ""⟩
    [⟨js "abc123", js "https://example.com", js ""⟩,
      ⟨js "xyz789", js "https://example.org", js ""⟩]
    ⟨404, js "Not Found", .error (js "")⟩ rfl).2.1 rfl).2

/-! ## Inputs on which the code departs from its description -/

/-- C2. The input `http:example.com` passes validation, since `new URL` reads
it as an `http` URL, but it does not begin with `http://`, so the URL
submitted is `https://http:example.com`, which `new URL` rejects. -/
theorem submitted_url_not_parsed (P : URL.HostAlgorithms) :
    getUrlError (URL.parse P) (.string (js "http:example.com")) = none ∧
    (UrlInput.handleSubmit (URL.parse P)
      { url := js "http:example.com", error := none, isLoading := false,
        touched := false }).2 = some (js "https://http:example.com") ∧
    normalizeURL (.string (js "http:example.com")) = js "https://http:example.com" ∧
    URL.parse P (normalizeURL (.string (js "http:example.com"))) = none :=
  ⟨rfl, rfl, rfl, rfl⟩

/-- C7. A response of status 500 whose status text contains `404` makes the
redirect page show the message for a short link that was not found. -/
theorem redirect_not_found_on_500 (API_BASE_URL shortCode : JSString)
    (replace : Option Json → Except JSError Unit) (json : Except JSString Json) :
    (RedirectPage.fetchAndRedirect API_BASE_URL
      (fun _ => .ok ⟨500, js "upstream 404", json⟩) replace shortCode
      RedirectPage.init).error = some (js "Короткая ссылка не найдена") ∧
    (RedirectPage.fetchAndRedirect API_BASE_URL
      (fun _ => .ok ⟨500, js "upstream 404", json⟩) replace shortCode
      RedirectPage.init).replaceCalls = [] ∧
    Response.ok ⟨500, js "upstream 404", json⟩ = false := by
  have hmsg : includes (js "HTTP error! status: " ++ numberToString 500 ++ js ", " ++
      js "upstream 404") (js "404") = true := by decide
  have hres : (getUrl API_BASE_URL (fun _ => .ok ⟨500, js "upstream 404", json⟩)
      shortCode).result = .error (httpError ⟨500, js "upstream 404", json⟩) := rfl
  refine ⟨?_, ?_, rfl⟩
  · simp only [RedirectPage.fetchAndRedirect, hres, RedirectPage.onError, httpError,
      JSError.message, hmsg, if_true]
  · simp only [RedirectPage.fetchAndRedirect, hres, RedirectPage.onError,
      RedirectPage.init]

/-- C9. Blurring the field that holds the valid URL `https://example.com`
sets the error to the message for an empty URL, which is then displayed,
while `getUrlError` of that URL is `null`. -/
theorem handleBlur_reports_empty_for_valid_url (P : URL.HostAlgorithms) :
    getUrlError (URL.parse P) (.string (js "https://example.com")) = none ∧
    (useUrlInput.handleBlur (URL.parse P)
      { url := js "https://example.com", error := none, isLoading := false,
        touched := false }).error = some (js "URL cannot be empty") ∧
    UrlInput.showError (useUrlInput.handleBlur (URL.parse P)
      { url := js "https://example.com", error := none, isLoading := false,
        touched := false }) = true :=
  ⟨rfl, rfl, rfl⟩


end UrlShortener
